import Mathlib

/-!
Shallow embedding of the capture-and-process core of OCRCapturText
(src/version/OCRCapturText_V1.1.py and src/version/OCRCapturText_V1.0.py).

Conventions:
* Screen coordinates are integers, image and viewport dimensions are
  naturals, exactly as delivered by tkinter (event.x_root, winfo_width)
  and PIL (Image.size).
* Python float division inside resize_image is modelled by exact rational
  arithmetic (the quantities involved are ratios of small integers);
  Python int() truncation on the nonnegative products involved equals
  the rational floor.
* Bitmap contents are identified by a natural number tag: the embedding
  tracks which bitmap a computation reads, never pixel data.
-/

namespace OCRCapturText

/-! ## Region selection (ScreenCapturer.on_button_release, both versions) -/

/-- Selection rectangle in screen coordinates, as passed to
pyautogui.screenshot(region=(x, y, width, height)). -/
structure Region where
  x : Int
  y : Int
  width : Int
  height : Int
  deriving DecidableEq, Repr

/-- Embeds the rectangle normalization shared by both versions of
ScreenCapturer.on_button_release (V1.1 lines 258-268, V1.0 lines 277-286):
x1 = min(start_x, end_x), y1 = min(start_y, end_y),
x2 = max(start_x, end_x), y2 = max(start_y, end_y),
region = (x1, y1, x2 - x1, y2 - y1). -/
def selection_rect (startX startY endX endY : Int) : Region :=
  let x1 := min startX endX
  let y1 := min startY endY
  let x2 := max startX endX
  let y2 := max startY endY
  { x := x1, y := y1, width := x2 - x1, height := y2 - y1 }

/-- Observable outcome of one on_button_release run: whether a screen read
was attempted (and with which region), and which image the completion
callback received (none = "no image"). -/
structure CaptureStep where
  screenshot_region : Option Region
  callback_image : Option Nat
  deriving DecidableEq, Repr

/-- Embeds ScreenCapturer.on_button_release of V1.1 (lines 253-281).
The screen-read API pyautogui.screenshot is abstracted as the shot argument.
V1.1 guards the read: only when width > 0 and height > 0 is a screenshot
taken; otherwise captured_image is set to None and the callback receives
None. -/
def on_button_release_v11 (shot : Region → Option Nat)
    (startX startY endX endY : Int) : CaptureStep :=
  let r := selection_rect startX startY endX endY
  if 0 < r.width ∧ 0 < r.height then
    { screenshot_region := some r, callback_image := shot r }
  else
    { screenshot_region := none, callback_image := none }

/-- Embeds ScreenCapturer.on_button_release of V1.0 (lines 272-290).
V1.0 has no zero-area guard and no try/except: it always calls
pyautogui.screenshot with the normalized region, whatever its area. -/
def on_button_release_v10 (shot : Region → Option Nat)
    (startX startY endX endY : Int) : CaptureStep :=
  let r := selection_rect startX startY endX endY
  { screenshot_region := some r, callback_image := shot r }

/-! ## Display rescale (MainApplication.resize_image, both versions) -/

/-- Provenance of the bitmap handed to ImageTk.PhotoImage by resize_image:
either the stored original PIL image itself, or a resampled copy with the
given pixel dimensions. -/
inductive ScaleResult where
  | original : ScaleResult
  | scaled : Nat → Nat → ScaleResult
  deriving DecidableEq, Repr

/-- Embeds the scaling arithmetic of MainApplication.resize_image in V1.1
(lines 606-619): if the original fits the label on both axes the original
object is used unscaled; otherwise scale_factor = min(label_width /
original_width, label_height / original_height) (Python float division,
modelled exactly over the rationals), each target dimension is
int(original * scale_factor) (truncation = floor on these nonnegative
values), then clamped to at least 1 pixel. The local names width_scale
and height_scale stand for the width and height ratio locals of the
source. -/
def resize_core_v11 (ow oh lw lh : Nat) : ScaleResult :=
  if ow ≤ lw ∧ oh ≤ lh then ScaleResult.original
  else
    let width_scale : ℚ := (lw : ℚ) / (ow : ℚ)
    let height_scale : ℚ := (lh : ℚ) / (oh : ℚ)
    let scale_factor := min width_scale height_scale
    let new_width := (⌊(ow : ℚ) * scale_factor⌋).toNat
    let new_height := (⌊(oh : ℚ) * scale_factor⌋).toNat
    ScaleResult.scaled (max 1 new_width) (max 1 new_height)

/-- Embeds the scaling arithmetic of MainApplication.resize_image in V1.0
(lines 607-624): same fit test and scale factor, but the computed
dimensions int(original * scale_factor) are NOT clamped to 1; a
scale_factor of at least 1 falls back to the original object (dead code,
since the else branch implies the factor is below 1). -/
def resize_core_v10 (ow oh lw lh : Nat) : ScaleResult :=
  if ow ≤ lw ∧ oh ≤ lh then ScaleResult.original
  else
    let width_scale : ℚ := (lw : ℚ) / (ow : ℚ)
    let height_scale : ℚ := (lh : ℚ) / (oh : ℚ)
    let scale_factor := min width_scale height_scale
    if scale_factor < 1 then
      ScaleResult.scaled (⌊(ow : ℚ) * scale_factor⌋).toNat
        (⌊(oh : ℚ) * scale_factor⌋).toNat
    else ScaleResult.original

/-- The display state read and written by resize_image: the stored original
PIL image (by its pixel dimensions) and the cached tk display image. -/
structure DisplayState where
  original_image : Option (Nat × Nat)
  tk_image : Option ScaleResult
  deriving DecidableEq, Repr

/-- Embeds MainApplication.resize_image of V1.1 (lines 595-621); the guard
structure is identical in V1.0 (lines 594-605). Returns immediately,
leaving all state unchanged, when no original image is stored or when the
label viewport reports width or height at most 1; otherwise rebuilds
tk_image from the scaling core. -/
def resize_image (s : DisplayState) (label_width label_height : Nat) :
    DisplayState :=
  match s.original_image with
  | none => s
  | some dims =>
    if label_width ≤ 1 ∨ label_height ≤ 1 then s
    else
      { s with tk_image := some (resize_core_v11 dims.1 dims.2 label_width label_height) }

/-! ## Resize debounce (MainApplication.on_window_resize, both versions)

The tk "after" timer is modelled by an absolute fire time: scheduling
after(window, cb) at time t stores t + window; after_cancel discards the
stored time. V1.1 uses window = 100 ms, V1.0 uses 50 ms; the model takes
the window as a parameter, so every statement covers both versions. -/

/-- One viewport-resize (Configure) event: its arrival time and the new
label size it establishes. -/
structure ResizeEvent where
  time : Nat
  width : Nat
  height : Nat
  deriving DecidableEq, Repr

/-- State touched by the debounce logic: whether an original image exists,
the current label viewport size (what winfo reports when the debounced
callback finally runs), the pending after-job fire time, and the list of
viewport sizes at which debounced_resize_and_update_image has executed. -/
structure DebounceState where
  has_image : Bool
  viewport : Nat × Nat
  resize_job : Option Nat
  executed : List (Nat × Nat)
  deriving DecidableEq, Repr

/-- Embeds MainApplication.on_window_resize (V1.1 lines 623-628, V1.0
lines 626-631) for an event at absolute time t: the Configure event itself
establishes the new label size; when an original image exists, any pending
resize job is cancelled (its stored fire time is overwritten) and a fresh
one is scheduled window ms later. -/
def on_window_resize (window : Nat) (s : DebounceState) (t : Nat)
    (size : Nat × Nat) : DebounceState :=
  if s.has_image then
    { s with viewport := size, resize_job := some (t + window) }
  else
    { s with viewport := size }

/-- Embeds debounced_resize_and_update_image (V1.1 lines 630-633): the
pending job runs resize_image against the label size current at fire time
and then clears resize_job. -/
def fire_resize_job (s : DebounceState) : DebounceState :=
  { s with resize_job := none, executed := s.executed ++ [s.viewport] }

/-- Delivers the pending after-job if its fire time has been reached by
time t (the tk event loop runs due timers before later events). -/
def deliver_due (s : DebounceState) (t : Nat) : DebounceState :=
  match s.resize_job with
  | some ft => if ft ≤ t then fire_resize_job s else s
  | none => s

/-- Runs a timeline of resize events: before each event any due timer
fires, then the event is handled by on_window_resize. -/
def process_events (window : Nat) : DebounceState → List ResizeEvent → DebounceState
  | s, [] => s
  | s, e :: rest =>
      process_events window
        (on_window_resize window (deliver_due s e.time) e.time (e.width, e.height)) rest

/-- After the burst quiesces, the surviving timer (if any) fires. -/
def quiesce (s : DebounceState) : DebounceState :=
  match s.resize_job with
  | some _ => fire_resize_job s
  | none => s

/-- The last event of a nonempty burst e :: rest. -/
def last_event (e : ResizeEvent) (rest : List ResizeEvent) : ResizeEvent :=
  rest.foldl (fun _ b => b) e

/-! ## Controller, task runner and jobs (MainApplication, both versions) -/

/-- Controller-owned UI-visible state: the current captured bitmap (by
content tag) and the enablement of the two action buttons. -/
structure ControllerState where
  captured_image : Option Nat
  text_button_enabled : Bool
  image_button_enabled : Bool
  deriving DecidableEq, Repr

/-- A job as submitted to the ThreadPoolExecutor. Both submissions pass
only the bound method — executor.submit(self.perform_ocr) at V1.1 line 649
and executor.submit(self.copy_image_to_clipboard) at line 644 — so the
job closure carries a reference to the application object and NO image
argument. -/
inductive Job where
  | perform_ocr : Job
  | copy_image_to_clipboard : Job
  deriving DecidableEq, Repr

/-- Outcome of the external effect a job body runs into: success, the
platform-unsupported branch of copy_image_to_clipboard, or a caught
exception (TesseractNotFoundError, clipboard failure, other OCR error).
Every branch ends in a message box only. -/
inductive JobOutcome where
  | ok : JobOutcome
  | unsupported : JobOutcome
  | failed : String → JobOutcome
  deriving DecidableEq, Repr

/-- The application system: controller state, the executor queue of
pending job closures, and the completed jobs, each recorded with the
image the job body actually read and its outcome. -/
structure AppSystem where
  ctrl : ControllerState
  pending : List Job
  completed : List (Job × Option Nat × JobOutcome)
  deriving DecidableEq, Repr

/-- Embeds MainApplication.process_captured_image (V1.1 lines 572-583):
a successful capture replaces the captured image wholesale and enables
both buttons; a failed capture (None) only shows a warning and leaves
the controller state unchanged. -/
def process_captured_image (c : ControllerState) (img : Option Nat) :
    ControllerState :=
  match img with
  | some i =>
      { captured_image := some i, text_button_enabled := true,
        image_button_enabled := true }
  | none => c

/-- Embeds the require_capture decorator wrapping on_text_button and
on_image_button (V1.1 lines 313-328, 641-649): with a captured image the
job closure is appended to the executor queue; without one only a warning
is shown and nothing is submitted. -/
def submit_guarded (s : AppSystem) (j : Job) : AppSystem :=
  match s.ctrl.captured_image with
  | some _ => { s with pending := s.pending ++ [j] }
  | none => s

/-- Embeds the body of perform_ocr (V1.1 lines 680-708) and
copy_image_to_clipboard (V1.1 lines 651-678) as observed at execution
time: each body dereferences self.captured_image when it runs (lines 702
and 660), so the record of a completed job carries the image current at
run time. Neither body assigns any controller field on any outcome. -/
def run_job (c : ControllerState) (j : Job) (o : JobOutcome) :
    Job × Option Nat × JobOutcome :=
  (j, c.captured_image, o)

/-- Events of the interleaved execution: button presses on the UI thread,
completion of a capture (the callback of ScreenCapturer), and a worker
picking up and finishing the next queued job with a given outcome. -/
inductive AppEvent where
  | press_text_button : AppEvent
  | press_image_button : AppEvent
  | capture_done : Option Nat → AppEvent
  | run_next_job : JobOutcome → AppEvent
  deriving DecidableEq, Repr

/-- Small-step semantics of the application system. -/
def step (s : AppSystem) : AppEvent → AppSystem
  | AppEvent.press_text_button => submit_guarded s Job.perform_ocr
  | AppEvent.press_image_button => submit_guarded s Job.copy_image_to_clipboard
  | AppEvent.capture_done img => { s with ctrl := process_captured_image s.ctrl img }
  | AppEvent.run_next_job o =>
      match s.pending with
      | [] => s
      | j :: rest =>
          { s with pending := rest, completed := s.completed ++ [run_job s.ctrl j o] }

/-- Runs a list of events from a starting system state. -/
def run_events (s : AppSystem) : List AppEvent → AppSystem
  | [] => s
  | e :: es => run_events (step s e) es

/-- Recognizes the capture-completion event. -/
def is_capture_event : AppEvent → Bool
  | AppEvent.capture_done _ => true
  | _ => false

/-- The application state with no capture yet: no image, both action
buttons disabled (MainApplication init, V1.1 lines 431, 482-486). -/
def initial_system : AppSystem :=
  { ctrl := { captured_image := none, text_button_enabled := false,
              image_button_enabled := false },
    pending := [], completed := [] }

/-! ## OCR invocation (OCRProcessor.extract_text, both versions) -/

/-- What one call of OCRProcessor.extract_text hands to the Tesseract
engine: whether the grayscale view was produced first, and the engine
mode flags of the fixed configuration string. -/
structure OcrInvocation where
  grayscale_applied : Bool
  oem : Nat
  psm : Nat
  lang : String
  deriving DecidableEq, Repr

/-- Embeds OCRProcessor.extract_text (V1.1 lines 297-310, identical in
V1.0 lines 305-317): gray = image.convert(L) is always computed first,
and the engine is invoked with the fixed configuration string
"--oem 1 --psm 6" and the configured language code. -/
def extract_text (lang : String) : OcrInvocation :=
  { grayscale_applied := true, oem := 1, psm := 6, lang := lang }

/-- Tesseract OCR engine modes selectable with the oem flag, in their
documented numbering. -/
inductive OcrEngineMode where
  | legacy_only : OcrEngineMode
  | lstm_only : OcrEngineMode
  | legacy_plus_lstm : OcrEngineMode
  | default_mode : OcrEngineMode
  deriving DecidableEq, Repr

/-- Documented numeric code of each Tesseract engine mode: 0 legacy only,
1 LSTM only, 2 legacy plus LSTM, 3 default. -/
def oem_code : OcrEngineMode → Nat
  | OcrEngineMode.legacy_only => 0
  | OcrEngineMode.lstm_only => 1
  | OcrEngineMode.legacy_plus_lstm => 2
  | OcrEngineMode.default_mode => 3

/-- Modelled from the words of the spec (section 4.5): a recognition mode
equivalent to "single uniform block of text, legacy+LSTM engine", that is
page segmentation mode 6 together with the legacy-plus-LSTM engine. -/
def spec_claimed_mode (inv : OcrInvocation) : Prop :=
  inv.psm = 6 ∧ inv.oem = oem_code OcrEngineMode.legacy_plus_lstm

/-! ## Engine path validation (ConfigurationDialog.validate_tesseract_path) -/

/-- The module-global engine path pytesseract.pytesseract.tesseract_cmd. -/
structure GlobalOcr where
  tesseract_cmd : String
  deriving DecidableEq, Repr

/-- Outcome of probing pytesseract.get_tesseract_version() while the
candidate path is installed: a version string, or a raised exception. -/
inductive EngineProbe where
  | version : String → EngineProbe
  | raises : String → EngineProbe
  deriving DecidableEq, Repr

/-- Embeds ConfigurationDialog.validate_tesseract_path of V1.1 (lines
154-176). Empty path and nonexistent path return False before the global
is touched. Otherwise original_path is saved, the global is set to the
candidate, the engine is probed, and the finally block restores the
global on both the success and the exception path. Returns the final
global state and the boolean validation result. -/
def validate_tesseract_path (g : GlobalOcr) (path : String)
    (path_exists : Bool) (probe : EngineProbe) : GlobalOcr × Bool :=
  if path = "" then (g, false)
  else if path_exists = false then (g, false)
  else
    let original_path := g.tesseract_cmd
    let g1 : GlobalOcr := { tesseract_cmd := path }
    match probe with
    | EngineProbe.version _ => ({ g1 with tesseract_cmd := original_path }, true)
    | EngineProbe.raises _ => ({ g1 with tesseract_cmd := original_path }, false)

/-- Embeds ConfigurationDialog.validate_tesseract_path of V1.0 (lines
150-194): the same guards; the restoration of the global is written
separately in the success branch (line 178) and in the except branch
(line 188) instead of a finally block. -/
def validate_tesseract_path_v10 (g : GlobalOcr) (path : String)
    (path_exists : Bool) (probe : EngineProbe) : GlobalOcr × Bool :=
  if path = "" then (g, false)
  else if path_exists = false then (g, false)
  else
    let original_path := g.tesseract_cmd
    let g1 : GlobalOcr := { tesseract_cmd := path }
    match probe with
    | EngineProbe.version _ => ({ g1 with tesseract_cmd := original_path }, true)
    | EngineProbe.raises _ => ({ g1 with tesseract_cmd := original_path }, false)

/-! ## Lemmas about the scaling arithmetic -/

lemma scale_floor_eval (a b c : Nat) :
    (⌊(a : ℚ) * ((b : ℚ) / (c : ℚ))⌋).toNat = a * b / c := by
  have h : (a : ℚ) * ((b : ℚ) / (c : ℚ)) = ((a * b : Nat) : ℚ) / ((c : Nat) : ℚ) := by
    push_cast
    ring
  rw [h, Rat.floor_natCast_div_natCast, ← Int.natCast_div, Int.toNat_natCast]

lemma min_scale_left (ow oh lw lh : Nat) (how : 0 < ow) (hoh : 0 < oh)
    (h : lw * oh ≤ lh * ow) :
    min ((lw : ℚ) / (ow : ℚ)) ((lh : ℚ) / (oh : ℚ)) = (lw : ℚ) / (ow : ℚ) := by
  apply min_eq_left
  rw [div_le_div_iff₀ (by exact_mod_cast how) (by exact_mod_cast hoh)]
  exact_mod_cast h

lemma min_scale_right (ow oh lw lh : Nat) (how : 0 < ow) (hoh : 0 < oh)
    (h : lh * ow ≤ lw * oh) :
    min ((lw : ℚ) / (ow : ℚ)) ((lh : ℚ) / (oh : ℚ)) = (lh : ℚ) / (oh : ℚ) := by
  apply min_eq_right
  rw [div_le_div_iff₀ (by exact_mod_cast hoh) (by exact_mod_cast how)]
  exact_mod_cast h

lemma resize_core_v11_eval_left (ow oh lw lh : Nat) (how : 0 < ow) (hoh : 0 < oh)
    (hnot : ¬ (ow ≤ lw ∧ oh ≤ lh)) (hmin : lw * oh ≤ lh * ow) :
    resize_core_v11 ow oh lw lh
      = ScaleResult.scaled (max 1 lw) (max 1 (oh * lw / ow)) := by
  simp only [resize_core_v11]
  rw [if_neg hnot, min_scale_left ow oh lw lh how hoh hmin, scale_floor_eval,
    scale_floor_eval, Nat.mul_div_cancel_left lw how]

lemma resize_core_v10_eval_left (ow oh lw lh : Nat) (how : 0 < ow) (hoh : 0 < oh)
    (hnot : ¬ (ow ≤ lw ∧ oh ≤ lh)) (hmin : lw * oh ≤ lh * ow) (hlt : lw < ow) :
    resize_core_v10 ow oh lw lh
      = ScaleResult.scaled lw (oh * lw / ow) := by
  simp only [resize_core_v10]
  rw [if_neg hnot, min_scale_left ow oh lw lh how hoh hmin,
    if_pos (by rw [div_lt_one (by exact_mod_cast how)]; exact_mod_cast hlt),
    scale_floor_eval, scale_floor_eval, Nat.mul_div_cancel_left lw how]

/-! ## Claim theorems: selection and capture -/

/-- C8: for every drag gesture from anchor (px, py) to release (qx, qy),
the selection rectangle computed on release is the normalized bounding
box: origin (min px qx, min py qy), width and height the absolute
coordinate differences, both nonnegative; in particular a drag from
(100,100) to (50,50) yields the rectangle (50,50,50,50). -/
theorem selection_rect_normalized (px py qx qy : Int) :
    selection_rect px py qx qy
        = { x := min px qx, y := min py qy,
            width := |px - qx|, height := |py - qy| } ∧
    0 ≤ (selection_rect px py qx qy).width ∧
    0 ≤ (selection_rect px py qx qy).height ∧
    selection_rect 100 100 50 50 = { x := 50, y := 50, width := 50, height := 50 } := by
  refine ⟨?_, ?_, ?_, by decide⟩
  · simp [selection_rect, max_sub_min_eq_abs, abs_sub_comm]
  · simp only [selection_rect]
    exact sub_nonneg.mpr min_le_max
  · simp only [selection_rect]
    exact sub_nonneg.mpr min_le_max

/-- C2: a zero-area selection (here the drag from (100,100) to (100,200),
whose normalized width is 0). In V1.1 no screen read is attempted and the
completion callback receives None; in V1.0 on_button_release calls
pyautogui.screenshot unconditionally, with the zero-width region
(100, 100, 0, 100). -/
theorem zero_area_release_v10_attempts_read :
    (on_button_release_v10 (fun _ => some 7) 100 100 100 200).screenshot_region
        = some { x := 100, y := 100, width := 0, height := 100 } ∧
    on_button_release_v11 (fun _ => some 7) 100 100 100 200
        = { screenshot_region := none, callback_image := none } := by
  decide

/-! ## Claim theorems: display rescale -/

/-- C3: at source image 1000 by 10 and viewport 10 by 2 (source wider than
the viewport, both viewport dimensions above 1) the V1.0 rescale computes
the tighter scale factor 1/100 and truncates the height to 0 pixels,
violating the claimed at-least-1-pixel rounding; V1.1 clamps the same
result to height 1 as the claim states. -/
theorem resize_v10_rounds_dimension_to_zero :
    resize_core_v10 1000 10 10 2 = ScaleResult.scaled 10 0 ∧
    resize_core_v11 1000 10 10 2 = ScaleResult.scaled 10 1 := by
  constructor
  · rw [resize_core_v10_eval_left 1000 10 10 2 (by norm_num) (by norm_num)
      (by norm_num) (by norm_num) (by norm_num)]
  · rw [resize_core_v11_eval_left 1000 10 10 2 (by norm_num) (by norm_num)
      (by norm_num) (by norm_num)]
    decide

/-- C4: whenever both source dimensions fit the viewport, the scaling core
of either version selects the stored original image object itself, with
no resampling; through the full V1.1 resize_image (with its guards
passed) the display cache is rebuilt from that unscaled original. -/
theorem resize_returns_source_unscaled_when_it_fits
    (s : DisplayState) (ow oh lw lh : Nat)
    (hw : ow ≤ lw) (hh : oh ≤ lh) :
    resize_core_v11 ow oh lw lh = ScaleResult.original ∧
    resize_core_v10 ow oh lw lh = ScaleResult.original ∧
    (s.original_image = some (ow, oh) → 1 < lw → 1 < lh →
      resize_image s lw lh = { s with tk_image := some ScaleResult.original }) := by
  refine ⟨?_, ?_, ?_⟩
  · simp [resize_core_v11, hw, hh]
  · simp [resize_core_v10, hw, hh]
  · intro himg hlw hlh
    have hguard : ¬ (lw ≤ 1 ∨ lh ≤ 1) := by omega
    simp [resize_image, himg, hguard, resize_core_v11, hw, hh]

/-- C4 witness: a 100 by 50 image in a 200 by 150 viewport is displayed
unscaled. -/
theorem resize_returns_source_unscaled_when_it_fits_witness :
    resize_core_v11 100 50 200 150 = ScaleResult.original ∧
    resize_core_v10 100 50 200 150 = ScaleResult.original ∧
    ((DisplayState.mk (some (100, 50)) none).original_image = some (100, 50) →
      1 < 200 → 1 < 150 →
      resize_image (DisplayState.mk (some (100, 50)) none) 200 150
        = { DisplayState.mk (some (100, 50)) none with
            tk_image := some ScaleResult.original }) :=
  resize_returns_source_unscaled_when_it_fits
    (DisplayState.mk (some (100, 50)) none) 100 50 200 150
    (by decide) (by decide)

/-- C9: when no original image is stored, or the label viewport reports a
width or height of at most 1 pixel, resize_image returns with the whole
display state (including the cached tk image) unchanged. -/
theorem resize_image_noop_without_image_or_viewport
    (s : DisplayState) (lw lh : Nat)
    (h : s.original_image = none ∨ lw ≤ 1 ∨ lh ≤ 1) :
    resize_image s lw lh = s := by
  rcases h with h | h | h
  · simp [resize_image, h]
  · cases hoi : s.original_image with
    | none => simp [resize_image, hoi]
    | some dims => simp [resize_image, hoi, h]
  · cases hoi : s.original_image with
    | none => simp [resize_image, hoi]
    | some dims => simp [resize_image, hoi, h]

/-- C9 witness: with an 800 by 600 original and a degenerate viewport of
width 1, resize_image changes nothing. -/
theorem resize_image_noop_without_image_or_viewport_witness :
    resize_image (DisplayState.mk (some (800, 600)) none) 1 500
      = DisplayState.mk (some (800, 600)) none :=
  resize_image_noop_without_image_or_viewport
    (DisplayState.mk (some (800, 600)) none) 1 500 (Or.inr (Or.inl (by decide)))

/-! ## Claim theorems: debounce -/

lemma last_event_cons (e f : ResizeEvent) (rest : List ResizeEvent) :
    last_event e (f :: rest) = last_event f rest := rfl

lemma process_events_within_window (window : Nat) (rest : List ResizeEvent) :
    ∀ (e : ResizeEvent) (ex : List (Nat × Nat)),
      List.Chain (fun a c => c.time < a.time + window) e rest →
      process_events window
        { has_image := true, viewport := (e.width, e.height),
          resize_job := some (e.time + window), executed := ex } rest
        = { has_image := true,
            viewport := ((last_event e rest).width, (last_event e rest).height),
            resize_job := some ((last_event e rest).time + window),
            executed := ex } := by
  induction rest with
  | nil => intro e ex hch; rfl
  | cons f rest ih =>
      intro e ex hch
      rw [List.chain_cons] at hch
      obtain ⟨hr, hch⟩ := hch
      have hnotdue : ¬ (e.time + window ≤ f.time) := by omega
      rw [last_event_cons]
      have hstep := ih f ex hch
      calc process_events window
            { has_image := true, viewport := (e.width, e.height),
              resize_job := some (e.time + window), executed := ex } (f :: rest)
          = process_events window
            { has_image := true, viewport := (f.width, f.height),
              resize_job := some (f.time + window), executed := ex } rest := by
            simp [process_events, deliver_due, on_window_resize, hnotdue]
        _ = { has_image := true,
              viewport := ((last_event f rest).width, (last_event f rest).height),
              resize_job := some ((last_event f rest).time + window),
              executed := ex } := hstep

/-- C5: for every burst of one or more resize events in which each event
arrives strictly within the debounce window of its predecessor (V1.1 uses
a 100 ms window, V1.0 a 50 ms one; the statement covers any window),
starting with an image present and no rescale scheduled: every event
before the last has its scheduled rescale cancelled by its successor, and
after the burst quiesces exactly one debounced rescale executes, at the
viewport size established by the last event. -/
theorem debounce_burst_single_rescale (window : Nat) (e : ResizeEvent)
    (rest : List ResizeEvent) (v0 : Nat × Nat)
    (hburst : List.Chain (fun a c => c.time < a.time + window) e rest) :
    quiesce (process_events window
        { has_image := true, viewport := v0, resize_job := none, executed := [] }
        (e :: rest))
      = { has_image := true,
          viewport := ((last_event e rest).width, (last_event e rest).height),
          resize_job := none,
          executed := [((last_event e rest).width, (last_event e rest).height)] } := by
  have h0 : process_events window
      { has_image := true, viewport := v0, resize_job := none, executed := [] }
      (e :: rest)
      = process_events window
        { has_image := true, viewport := (e.width, e.height),
          resize_job := some (e.time + window), executed := [] } rest := by
    simp [process_events, deliver_due, on_window_resize]
  rw [h0, process_events_within_window window rest e [] hburst]
  rfl

/-- C5 witness: two resize events 10 ms apart inside a 50 ms window
produce exactly one rescale, at the size of the second event. -/
theorem debounce_burst_single_rescale_witness :
    quiesce (process_events 50
        { has_image := true, viewport := (0, 0), resize_job := none, executed := [] }
        [{ time := 0, width := 800, height := 600 },
         { time := 10, width := 900, height := 700 }])
      = { has_image := true, viewport := (900, 700), resize_job := none,
          executed := [(900, 700)] } :=
  debounce_burst_single_rescale 50 { time := 0, width := 800, height := 600 }
    [{ time := 10, width := 900, height := 700 }] (0, 0)
    (List.Chain.cons (by decide) List.Chain.nil)

/-! ## Claim theorems: jobs, snapshots and the controller -/

/-- C1 counterexample: starting from no image, the trace "capture image 0,
press the text button (submitting the OCR job while image 0 is current),
capture image 1, worker runs the job" completes the job against image 1,
the replacement, not against image 0 that was current at submission. -/
theorem ocr_job_reads_replacement_image :
    (run_events initial_system
        [AppEvent.capture_done (some 0), AppEvent.press_text_button,
         AppEvent.capture_done (some 1), AppEvent.run_next_job JobOutcome.ok]).completed
      = [(Job.perform_ocr, some 1, JobOutcome.ok)] ∧
    ((Job.perform_ocr, some 1, JobOutcome.ok) : Job × Option Nat × JobOutcome)
      ≠ (Job.perform_ocr, some 0, JobOutcome.ok) := by
  exact ⟨rfl, by decide⟩

/-- C1 amended: an OCR or clipboard job closure captures only the
application reference, so the job reads the captured image current when
the job body runs; a capture that replaces image a with image b between
submission and execution makes the job complete against b, whatever the
outcome. -/
theorem job_reads_image_current_at_run_time (a b : Nat) (o : JobOutcome) :
    (run_events initial_system
        [AppEvent.capture_done (some a), AppEvent.press_text_button,
         AppEvent.capture_done (some b), AppEvent.run_next_job o]).completed
      = [(Job.perform_ocr, some b, o)] ∧
    (run_events initial_system
        [AppEvent.capture_done (some a), AppEvent.press_image_button,
         AppEvent.capture_done (some b), AppEvent.run_next_job o]).completed
      = [(Job.copy_image_to_clipboard, some b, o)] :=
  ⟨rfl, rfl⟩

lemma step_ctrl_of_not_capture (s : AppSystem) (e : AppEvent)
    (h : is_capture_event e = false) : (step s e).ctrl = s.ctrl := by
  cases e with
  | press_text_button =>
      simp only [step, submit_guarded]
      cases s.ctrl.captured_image <;> rfl
  | press_image_button =>
      simp only [step, submit_guarded]
      cases s.ctrl.captured_image <;> rfl
  | capture_done img => simp [is_capture_event] at h
  | run_next_job o =>
      simp only [step]
      cases s.pending <;> rfl

/-- C7: any sequence of button presses and job executions that contains no
capture completion — in particular an OCR or clipboard-copy action
submitted from HasImage and run to completion with any outcome (success,
unsupported platform, or a caught failure) — leaves the controller state,
including the current captured image and the button enablement, exactly
unchanged. -/
theorem jobs_preserve_controller_state (s : AppSystem) (es : List AppEvent)
    (h : ∀ e ∈ es, is_capture_event e = false) :
    (run_events s es).ctrl = s.ctrl := by
  induction es generalizing s with
  | nil => rfl
  | cons e es ih =>
      have h1 := ih (step s e) (fun x hx => h x (List.mem_cons_of_mem e hx))
      calc (run_events s (e :: es)).ctrl
          = (run_events (step s e) es).ctrl := rfl
        _ = (step s e).ctrl := h1
        _ = s.ctrl := step_ctrl_of_not_capture s e (h e (List.mem_cons_self e es))

/-- C7 witness: from HasImage (image 5, both buttons enabled), running an
OCR job to success, a clipboard job to the unsupported outcome, and a
failed job leaves the controller state untouched. -/
theorem jobs_preserve_controller_state_witness :
    (run_events
        { ctrl := { captured_image := some 5, text_button_enabled := true,
                    image_button_enabled := true },
          pending := [], completed := [] }
        [AppEvent.press_text_button, AppEvent.run_next_job JobOutcome.ok,
         AppEvent.press_image_button, AppEvent.run_next_job JobOutcome.unsupported,
         AppEvent.run_next_job (JobOutcome.failed "engine error")]).ctrl
      = { captured_image := some 5, text_button_enabled := true,
          image_button_enabled := true } :=
  jobs_preserve_controller_state
    { ctrl := { captured_image := some 5, text_button_enabled := true,
                image_button_enabled := true },
      pending := [], completed := [] }
    [AppEvent.press_text_button, AppEvent.run_next_job JobOutcome.ok,
     AppEvent.press_image_button, AppEvent.run_next_job JobOutcome.unsupported,
     AppEvent.run_next_job (JobOutcome.failed "engine error")]
    (by decide)

/-! ## Claim theorems: OCR invocation -/

/-- C6 counterexample: the invocation built by extract_text carries oem 1,
not the legacy-plus-LSTM engine mode (oem 2) named by the spec, so the
claimed recognition mode does not hold of the invocation. -/
theorem extract_text_mode_not_legacy_plus_lstm :
    ¬ spec_claimed_mode (extract_text "tur") := by
  intro h
  exact absurd h.2 (by decide)

/-- C6 amended: every OCR invocation converts the image to grayscale first
and uses the fixed mode psm 6 (single uniform block of text) with oem 1,
the LSTM-only engine. -/
theorem extract_text_fixed_grayscale_and_mode (lang : String) :
    (extract_text lang).grayscale_applied = true ∧
    (extract_text lang).psm = 6 ∧
    (extract_text lang).oem = oem_code OcrEngineMode.lstm_only :=
  ⟨rfl, rfl, rfl⟩

/-! ## Claim theorems: engine path validation -/

/-- C10: validate_tesseract_path of either version leaves the global
engine command path exactly as it found it, on every outcome: empty
candidate, nonexistent file, successful probe, or engine error. -/
theorem validate_path_restores_engine_path (g : GlobalOcr) (path : String)
    (path_exists : Bool) (probe : EngineProbe) :
    (validate_tesseract_path g path path_exists probe).1 = g ∧
    (validate_tesseract_path_v10 g path path_exists probe).1 = g := by
  refine ⟨?_, ?_⟩
  · simp only [validate_tesseract_path]
    split_ifs <;> cases probe <;> rfl
  · simp only [validate_tesseract_path_v10]
    split_ifs <;> cases probe <;> rfl

/-! ## Supporting development: the V1.1 scaling core in general

Not tied to a single concrete input: whenever the source exceeds the
viewport on some axis and the viewport guards have passed, the V1.1 core
produces a result that fits the viewport on both axes, is at least one
pixel on each axis, and preserves the source aspect ratio to within one
pixel on the more constrained axis (cross-multiplied form). -/

lemma resize_core_v11_shrinks_left (ow oh lw lh : Nat)
    (how : 0 < ow) (hoh : 0 < oh) (hlw : 1 < lw) (hlh : 1 < lh)
    (hnot : ¬ (ow ≤ lw ∧ oh ≤ lh)) (hc : lw * oh ≤ lh * ow) :
    ∃ w h, resize_core_v11 ow oh lw lh = ScaleResult.scaled w h ∧
      1 ≤ w ∧ 1 ≤ h ∧ w ≤ lw ∧ h ≤ lh ∧
      |(w : Int) * (oh : Int) - (h : Int) * (ow : Int)| ≤ (ow : Int) := by
  rw [resize_core_v11_eval_left ow oh lw lh how hoh hnot hc]
  refine ⟨max 1 lw, max 1 (oh * lw / ow), rfl, le_max_left 1 lw,
    le_max_left 1 (oh * lw / ow), max_le (by omega) le_rfl, ?_, ?_⟩
  · apply max_le (by omega)
    calc oh * lw / ow ≤ lh * ow / ow :=
          Nat.div_le_div_right (by rw [Nat.mul_comm oh lw]; exact hc)
      _ = lh := Nat.mul_div_cancel lh how
  · have hdm : ow * (oh * lw / ow) + oh * lw % ow = oh * lw :=
      Nat.div_add_mod (oh * lw) ow
    have hmaxw : max 1 lw = lw := Nat.max_eq_right (by omega)
    have hdmZ : (ow : Int) * ((oh * lw / ow : Nat) : Int)
        + ((oh * lw % ow : Nat) : Int) = (oh : Int) * (lw : Int) := by
      exact_mod_cast hdm
    have hmodZ : ((oh * lw % ow : Nat) : Int) < (ow : Int) := by
      exact_mod_cast Nat.mod_lt (oh * lw) how
    have hmz : (0 : Int) ≤ ((oh * lw % ow : Nat) : Int) := by positivity
    have hnn : (0 : Int) ≤ (lw : Int) * (oh : Int) := by positivity
    rcases Nat.eq_zero_or_pos (oh * lw / ow) with hq | hq
    · rw [hq, hmaxw, Nat.max_eq_left (Nat.zero_le 1), abs_le]
      rw [hq] at hdmZ
      simp only [Nat.cast_zero, mul_zero, zero_add] at hdmZ
      constructor <;> push_cast <;> linarith
    · rw [hmaxw, Nat.max_eq_right hq, abs_le]
      constructor <;> linarith

lemma resize_core_v11_shrinks_right (ow oh lw lh : Nat)
    (how : 0 < ow) (hoh : 0 < oh) (hlw : 1 < lw) (hlh : 1 < lh)
    (hnot : ¬ (ow ≤ lw ∧ oh ≤ lh)) (hc : lh * ow ≤ lw * oh) :
    ∃ w h, resize_core_v11 ow oh lw lh = ScaleResult.scaled w h ∧
      1 ≤ w ∧ 1 ≤ h ∧ w ≤ lw ∧ h ≤ lh ∧
      |(w : Int) * (oh : Int) - (h : Int) * (ow : Int)| ≤ (oh : Int) := by
  have heval : resize_core_v11 ow oh lw lh
      = ScaleResult.scaled (max 1 (ow * lh / oh)) (max 1 lh) := by
    simp only [resize_core_v11]
    rw [if_neg hnot, min_scale_right ow oh lw lh how hoh hc, scale_floor_eval,
      scale_floor_eval, Nat.mul_div_cancel_left lh hoh]
  rw [heval]
  refine ⟨max 1 (ow * lh / oh), max 1 lh, rfl, le_max_left 1 (ow * lh / oh),
    le_max_left 1 lh, ?_, max_le (by omega) le_rfl, ?_⟩
  · apply max_le (by omega)
    calc ow * lh / oh ≤ lw * oh / oh :=
          Nat.div_le_div_right (by rw [Nat.mul_comm ow lh]; exact hc)
      _ = lw := Nat.mul_div_cancel lw hoh
  · have hdm : oh * (ow * lh / oh) + ow * lh % oh = ow * lh :=
      Nat.div_add_mod (ow * lh) oh
    have hmaxh : max 1 lh = lh := Nat.max_eq_right (by omega)
    have hdmZ : (oh : Int) * ((ow * lh / oh : Nat) : Int)
        + ((ow * lh % oh : Nat) : Int) = (ow : Int) * (lh : Int) := by
      exact_mod_cast hdm
    have hmodZ : ((ow * lh % oh : Nat) : Int) < (oh : Int) := by
      exact_mod_cast Nat.mod_lt (ow * lh) hoh
    have hmz : (0 : Int) ≤ ((ow * lh % oh : Nat) : Int) := by positivity
    have hnn : (0 : Int) ≤ (lh : Int) * (ow : Int) := by positivity
    rcases Nat.eq_zero_or_pos (ow * lh / oh) with hq | hq
    · rw [hq, hmaxh, Nat.max_eq_left (Nat.zero_le 1), abs_le]
      rw [hq] at hdmZ
      simp only [Nat.cast_zero, mul_zero, zero_add] at hdmZ
      constructor <;> push_cast <;> linarith
    · rw [hmaxh, Nat.max_eq_right hq, abs_le]
      constructor <;> linarith

theorem resize_core_v11_shrinks_within_viewport (ow oh lw lh : Nat)
    (how : 0 < ow) (hoh : 0 < oh) (hlw : 1 < lw) (hlh : 1 < lh)
    (hnot : ¬ (ow ≤ lw ∧ oh ≤ lh)) :
    ∃ w h, resize_core_v11 ow oh lw lh = ScaleResult.scaled w h ∧
      1 ≤ w ∧ 1 ≤ h ∧ w ≤ lw ∧ h ≤ lh ∧
      |(w : Int) * (oh : Int) - (h : Int) * (ow : Int)|
        ≤ max (ow : Int) (oh : Int) := by
  rcases le_total (lw * oh) (lh * ow) with hc | hc
  · obtain ⟨w, h, heq, h1, h2, h3, h4, h5⟩ :=
      resize_core_v11_shrinks_left ow oh lw lh how hoh hlw hlh hnot hc
    exact ⟨w, h, heq, h1, h2, h3, h4, h5.trans (le_max_left _ _)⟩
  · obtain ⟨w, h, heq, h1, h2, h3, h4, h5⟩ :=
      resize_core_v11_shrinks_right ow oh lw lh how hoh hlw hlh hnot hc
    exact ⟨w, h, heq, h1, h2, h3, h4, h5.trans (le_max_right _ _)⟩

end OCRCapturText
